import Mathlib

/-!
# go-cloudflare-dyn: a shallow embedding of `main.go`

The program is a poll loop: fetch the zone's DNS records (`getDNS`), observe the
public address (`getCurrentPublicIP`), and for every fetched record whose name is
one of the configured targets and whose content differs from the observed
address, call `updateDNS`; then sleep and repeat.

Every remote interaction is replaced by an explicit outcome supplied by the
environment (`TickWorld`), and every observable action of the program is recorded
as an `Event`.  Go `error` values are represented by their message strings, and
Go strings by their sequences of Unicode characters.
-/

set_option autoImplicit false

namespace CloudflareDyn

/-! ## Data model (main.go 15-28) -/

/-- The Go struct `DNSRecord` (main.go 15-22).  The field `Type` is written
`Type_`, since `Type` is reserved. -/
structure DNSRecord where
  ID : String
  Type_ : String
  Name : String
  Content : String
  TTL : Int
  Proxied : Bool
deriving DecidableEq

/-- The Go struct `Response` (main.go 24-28). -/
structure Response where
  Result : List DNSRecord
  Success : Bool
  Errors : List String
deriving DecidableEq

/-! ## `encoding/json` on `DNSRecord` -/

/-- The JSON values that occur in a marshalled `DNSRecord`. -/
inductive JSONValue where
  | str (s : String)
  | num (n : Int)
  | bool (b : Bool)
deriving DecidableEq

/-- One struct field as `encoding/json` sees it: the key taken from the
`json:"..."` tag, whether the tag carries `omitempty`, and the field's value. -/
structure JSONField where
  key : String
  omitempty : Bool
  value : JSONValue
deriving DecidableEq

/-- The "empty value" test that `omitempty` uses: false, 0 and the empty string. -/
def JSONValue.isEmptyValue : JSONValue → Bool
  | .str s => s.data.isEmpty
  | .num n => n == 0
  | .bool b => !b

/-- The fields of `DNSRecord` in declaration order with their tags
(main.go 16-21); no tag has `omitempty`. -/
def DNSRecord.jsonFields (r : DNSRecord) : List JSONField :=
  [ { key := "id", omitempty := false, value := .str r.ID },
    { key := "type", omitempty := false, value := .str r.Type_ },
    { key := "name", omitempty := false, value := .str r.Name },
    { key := "content", omitempty := false, value := .str r.Content },
    { key := "ttl", omitempty := false, value := .num r.TTL },
    { key := "proxied", omitempty := false, value := .bool r.Proxied } ]

/-- The members of the JSON object that `json.Marshal` writes for a struct:
every field in declaration order, except an `omitempty` field holding its
empty value. -/
def marshalFields : List JSONField → List (String × JSONValue)
  | [] => []
  | f :: fs =>
    if f.omitempty && f.value.isEmptyValue then marshalFields fs
    else (f.key, f.value) :: marshalFields fs

/-- The call `json.Marshal(body)` of main.go 90 for a `DNSRecord`, as the ordered
member list of the resulting JSON object.  Marshalling a struct of strings, an
int and a bool has no failing case, so the result is always `ok`. -/
def jsonMarshal (body : DNSRecord) : Except String (List (String × JSONValue)) :=
  .ok (marshalFields body.jsonFields)

/-! ## Events and environment -/

/-- The eight arguments of one call `updateDNS(...)` (main.go 79). -/
structure UpdateArgs where
  recordID : String
  zoneID : String
  recordType : String
  recordName : String
  recordContent : String
  recordTTL : Int
  recordProxied : Bool
  apiKey : String
deriving DecidableEq

/-- An HTTP request handed to the transport. -/
structure Request where
  method : String
  url : String
  headers : List (String × String)
  body : Option (List (String × JSONValue))
deriving DecidableEq

/-- The observable actions of the program. -/
inductive Event where
  | callGetDNS (zoneID apiKey : String)
  | callGetCurrentPublicIP
  | callUpdateDNS (args : UpdateArgs)
  | http (req : Request)
  | print (msg : String)
  | logPrintf (msg : String)
  | sleep (nanoseconds : Int)
deriving DecidableEq

/-- What the environment does with the request of `getDNS`. -/
inductive FetchOutcome where
  | newRequestError (err : String)
  | doError (err : String)
  | readError (err : String)
  | body (b : String)
deriving DecidableEq

/-- What the environment does with the request of `getCurrentPublicIP`. -/
inductive ObserveOutcome where
  | getError (err : String)
  | readError (err : String)
  | body (b : String)
deriving DecidableEq

/-- What the environment does with the request of one `updateDNS` call. -/
inductive UpdateOutcome where
  | newRequestError (err : String)
  | doError (err : String)
  | sent
deriving DecidableEq

/-- The environment of one loop iteration: the outcome of the fetch, of the
address lookup, and of the `n`-th update call of the iteration. -/
structure TickWorld where
  fetch : FetchOutcome
  observe : ObserveOutcome
  update : Nat → UpdateOutcome

/-- The parsed command line (main.go 115-126). -/
structure Config where
  records : List String
  apiKey : String
  zoneID : String
  refreshSeconds : Int

/-! ## `getDNS` (main.go 30-62) -/

/-- The text `fmt` writes for a `[]string` under `%v`. -/
def fmtStrings (xs : List String) : String :=
  "[" ++ " ".intercalate xs ++ "]"

/-- The part of `getDNS` after the body is read (main.go 52-61).  `unmarshal` is
`json.Unmarshal` into a `Response`. -/
def decodeResponse (unmarshal : String → Except String Response) (body : String) :
    Except String (List DNSRecord) :=
  match unmarshal body with
  | .error err => .error ("error parsing JSON: " ++ err)
  | .ok response =>
    if !response.Success then
      .error ("API returned errors: " ++ fmtStrings response.Errors)
    else
      .ok response.Result

/-- What the members of a body that `json.Unmarshal` accepts assign to the three
fields of `Response`: for each field the value assigned to it, or `none` when no
member of the body assigns it (the member is absent, or is `null`). -/
structure BodyMembers where
  result : Option (List DNSRecord)
  success : Option Bool
  errors : Option (List String)
deriving DecidableEq

/-- The call `json.Unmarshal(body, &response)` of main.go 53 on the variable
`response` declared at main.go 52, which holds Go's zero value (no records,
`false`, no errors): a field that the body assigns takes the assigned value and a
field that no member assigns keeps its zero value.  `read` is the decoder's
reading of the body: an error, or what the body's members assign. -/
def jsonUnmarshal (read : String → Except String BodyMembers) (body : String) :
    Except String Response :=
  match read body with
  | .error err => .error err
  | .ok members =>
    .ok { Result := members.result.getD [],
          Success := members.success.getD false,
          Errors := members.errors.getD [] }

/-- The request built by `getDNS` (main.go 31-39). -/
def getDNSRequest (zoneID apiKey : String) : Request :=
  { method := "GET",
    url := "https://api.cloudflare.com/client/v4/zones/" ++ zoneID ++ "/dns_records",
    headers := [("Content-Type", "application/json"), ("Authorization", "Bearer " ++ apiKey)],
    body := none }

/-- The function `getDNS`: its events and its result. -/
def getDNS (unmarshal : String → Except String Response) (zoneID apiKey : String)
    (o : FetchOutcome) : List Event × Except String (List DNSRecord) :=
  match o with
  | .newRequestError err => ([], .error err)
  | .doError err => ([.http (getDNSRequest zoneID apiKey)], .error err)
  | .readError err => ([.http (getDNSRequest zoneID apiKey)], .error err)
  | .body b => ([.http (getDNSRequest zoneID apiKey)], decodeResponse unmarshal b)

/-! ## `getCurrentPublicIP` (main.go 64-77) -/

/-- The predicate `unicode.IsSpace`, which `strings.TrimSpace` trims by. -/
def isSpace (c : Char) : Bool :=
  let n := c.toNat
  n = 0x09 || n = 0x0A || n = 0x0B || n = 0x0C || n = 0x0D || n = 0x20 ||
  n = 0x85 || n = 0xA0 || n = 0x1680 || (0x2000 ≤ n && n ≤ 0x200A) ||
  n = 0x2028 || n = 0x2029 || n = 0x202F || n = 0x205F || n = 0x3000

/-- The function `strings.TrimSpace` on the characters of a string. -/
def trimSpaceChars (cs : List Char) : List Char :=
  ((cs.dropWhile isSpace).reverse.dropWhile isSpace).reverse

/-- The function `strings.TrimSpace`. -/
def TrimSpace (s : String) : String :=
  ⟨trimSpaceChars s.data⟩

/-- The request of `http.Get("https://ifconfig.me/ip")`. -/
def publicIPRequest : Request :=
  { method := "GET", url := "https://ifconfig.me/ip", headers := [], body := none }

/-- The function `getCurrentPublicIP`: its events and its result. -/
def getCurrentPublicIP (o : ObserveOutcome) : List Event × Except String String :=
  match o with
  | .getError err => ([.http publicIPRequest], .error ("error fetching public IP: " ++ err))
  | .readError err => ([.http publicIPRequest], .error ("error reading response body: " ++ err))
  | .body b => ([.http publicIPRequest], .ok (TrimSpace b))

/-! ## `updateDNS` (main.go 79-112) -/

/-- The struct literal of main.go 82-88; `ID` is not set and keeps Go's zero
value, the empty string. -/
def updateBody (a : UpdateArgs) : DNSRecord :=
  { ID := "",
    Type_ := a.recordType,
    Name := a.recordName,
    Content := a.recordContent,
    TTL := a.recordTTL,
    Proxied := a.recordProxied }

/-- The URL of main.go 80. -/
def updateUrl (a : UpdateArgs) : String :=
  "https://api.cloudflare.com/client/v4/zones/" ++ a.zoneID ++ "/dns_records/" ++ a.recordID

/-- The request built by `updateDNS` (main.go 96-104) around a marshalled body. -/
def updateRequest (a : UpdateArgs) (jsonBody : List (String × JSONValue)) : Request :=
  { method := "PUT",
    url := updateUrl a,
    headers := [("Content-Type", "application/json"), ("Authorization", "Bearer " ++ a.apiKey)],
    body := some jsonBody }

/-- The function `updateDNS`: it returns nothing, so its model is its events. -/
def updateDNS (a : UpdateArgs) (o : UpdateOutcome) : List Event :=
  match jsonMarshal (updateBody a) with
  | .error err => [.print ("Error marshaling body: " ++ err ++ "\n")]
  | .ok jsonBody =>
    match o with
    | .newRequestError err => [.print (err ++ "\n")]
    | .doError err => [.http (updateRequest a jsonBody), .print (err ++ "\n")]
    | .sent => [.http (updateRequest a jsonBody)]

/-! ## `main` (main.go 114-156) -/

/-- The arguments of the call at main.go 148 for a fetched record. -/
def updateArgsOf (cfg : Config) (currentIP : String) (record : DNSRecord) : UpdateArgs :=
  { recordID := record.ID,
    zoneID := cfg.zoneID,
    recordType := record.Type_,
    recordName := record.Name,
    recordContent := currentIP,
    recordTTL := record.TTL,
    recordProxied := record.Proxied,
    apiKey := cfg.apiKey }

/-- The inner loop `for _, validEntry := range records` (main.go 144-151) for one
fetched record, over the remaining targets.  `n` counts the update calls made so
far in this iteration and selects the environment's outcome; the result is the
events and the new count. -/
def innerLoop (cfg : Config) (currentIP : String) (update : Nat → UpdateOutcome)
    (record : DNSRecord) : List String → Nat → List Event × Nat
  | [], n => ([], n)
  | validEntry :: rest, n =>
    if record.Name = validEntry then
      if record.Content ≠ currentIP then
        let r := innerLoop cfg currentIP update record rest (n + 1)
        ([.logPrintf ("The record " ++ record.Name ++ " is not correct"),
          .callUpdateDNS (updateArgsOf cfg currentIP record)]
          ++ updateDNS (updateArgsOf cfg currentIP record) (update n) ++ r.1, r.2)
      else innerLoop cfg currentIP update record rest n
    else innerLoop cfg currentIP update record rest n

/-- The outer loop `for _, record := range dnsRecords` (main.go 143-152). -/
def recordLoop (cfg : Config) (currentIP : String) (update : Nat → UpdateOutcome) :
    List DNSRecord → Nat → List Event × Nat
  | [], n => ([], n)
  | record :: rest, n =>
    let r1 := innerLoop cfg currentIP update record cfg.records n
    let r2 := recordLoop cfg currentIP update rest r1.2
    (r1.1 ++ r2.1, r2.2)

/-- Conversion to Go's `int64` with wrap-around. -/
def wrapInt64 (x : Int) : Int :=
  (x + 2 ^ 63) % 2 ^ 64 - 2 ^ 63

/-- One iteration of the `for` loop of `main` (main.go 131-153): its events, and
whether the loop goes on (`true`) or `main` returns (`false`). -/
def tick (unmarshal : String → Except String Response) (cfg : Config) (w : TickWorld) :
    List Event × Bool :=
  let r1 := getDNS unmarshal cfg.zoneID cfg.apiKey w.fetch
  match r1.2 with
  | .error err =>
    ([.callGetDNS cfg.zoneID cfg.apiKey] ++ r1.1
      ++ [.print ("Error fetching DNS records: " ++ err ++ "\n")], false)
  | .ok dnsRecords =>
    let r2 := getCurrentPublicIP w.observe
    match r2.2 with
    | .error err =>
      ([.callGetDNS cfg.zoneID cfg.apiKey] ++ r1.1 ++ [.callGetCurrentPublicIP] ++ r2.1
        ++ [.print ("Error fetching public IP: " ++ err ++ "\n")], false)
    | .ok currentIP =>
      ([.callGetDNS cfg.zoneID cfg.apiKey] ++ r1.1 ++ [.callGetCurrentPublicIP] ++ r2.1
        ++ (recordLoop cfg currentIP w.update dnsRecords 0).1
        ++ [.sleep (wrapInt64 (wrapInt64 cfg.refreshSeconds * 1000000000))], true)

/-- How a run stands: still looping, or the process has exited with a status. -/
inductive Status where
  | running
  | exited (code : Nat)
deriving DecidableEq

/-- The `for` loop of `main` from iteration `i`, run for at most `fuel`
iterations: the events of each iteration run, and the status.  `main` leaves the
loop only by `return` (main.go 134, 140), and a Go program whose `main` returns
exits with status 0. -/
def mainLoop (unmarshal : String → Except String Response) (cfg : Config)
    (world : Nat → TickWorld) : Nat → Nat → List (List Event) × Status
  | 0, _ => ([], .running)
  | fuel + 1, i =>
    let t := tick unmarshal cfg (world i)
    if t.2 then
      let r := mainLoop unmarshal cfg world fuel (i + 1)
      (t.1 :: r.1, r.2)
    else ([t.1], .exited 0)

/-- The function `main` after flag parsing, run for at most `fuel` iterations:
the start-up line, the events of each iteration, and the status. -/
def main (unmarshal : String → Except String Response) (cfg : Config)
    (world : Nat → TickWorld) (fuel : Nat) : Event × List (List Event) × Status :=
  (.print ("The records entered was: " ++ ", ".intercalate cfg.records ++ " \n"),
    mainLoop unmarshal cfg world fuel 0)

/-- The `updateDNS` calls among a list of events, in order. -/
def updateCalls : List Event → List UpdateArgs
  | [] => []
  | .callUpdateDNS a :: es => a :: updateCalls es
  | _ :: es => updateCalls es

/-- Whether an event is a call of `getCurrentPublicIP`. -/
def Event.isObserve : Event → Bool
  | .callGetCurrentPublicIP => true
  | _ => false

/-- Whether an event is a call of `updateDNS`. -/
def Event.isUpdate : Event → Bool
  | .callUpdateDNS _ => true
  | _ => false

/-! ## Scenario inputs (spec section 8) -/

/-- The configuration of the scenarios: one target, `host.example.com`. -/
def scenarioConfig : Config :=
  { records := ["host.example.com"], apiKey := "key", zoneID := "zone", refreshSeconds := 300 }

/-- The fetched record of the scenarios. -/
def scenarioRecord : DNSRecord :=
  { ID := "abc", Type_ := "A", Name := "host.example.com", Content := "1.1.1.1",
    TTL := 120, Proxied := false }

/-- A second fetched record, for another host, whose content is `2.2.2.2`. -/
def otherRecord : DNSRecord :=
  { ID := "def", Type_ := "A", Name := "other.example.com", Content := "2.2.2.2",
    TTL := 300, Proxied := true }

/-- A configuration with two targets matching the two records above. -/
def twoTargetConfig : Config :=
  { records := ["host.example.com", "other.example.com"], apiKey := "key", zoneID := "zone",
    refreshSeconds := 300 }

/-- A configuration in which `-records host.example.com` was given twice. -/
def repeatedTargetConfig : Config :=
  { records := ["host.example.com", "host.example.com"], apiKey := "key", zoneID := "zone",
    refreshSeconds := 300 }

/-- An environment in which every update call is sent. -/
def allSent : Nat → UpdateOutcome := fun _ => .sent

/-- A decoder that reads every body as the failure response
`{success: false, errors: ["invalid zone"]}`. -/
def unmarshalInvalidZone : String → Except String Response :=
  fun _ => .ok { Result := [], Success := false, Errors := ["invalid zone"] }

/-- A decoder that reads every body as a successful response listing the scenario
record. -/
def unmarshalScenario : String → Except String Response :=
  fun _ => .ok { Result := [scenarioRecord], Success := true, Errors := [] }

/-- An environment whose fetches return a body, whose address lookups return
`2.2.2.2` followed by a newline, and whose update calls all fail in transport. -/
def updatesFailWorld : Nat → TickWorld :=
  fun _ => { fetch := .body "", observe := .body "2.2.2.2\n",
             update := fun _ => .doError "connection refused" }

/-- An environment whose fetches return a body and whose address lookups fail. -/
def observeFailsWorld : Nat → TickWorld :=
  fun _ => { fetch := .body "", observe := .getError "no route to host",
             update := fun _ => .sent }

/-- An environment whose first iteration is healthy and whose later fetches fail in
transport. -/
def fetchFailsLater : Nat → TickWorld :=
  fun i =>
    if i = 0 then
      { fetch := .body "", observe := .body "2.2.2.2\n", update := fun _ => .sent }
    else
      { fetch := .doError "connection reset", observe := .body "2.2.2.2\n",
        update := fun _ => .sent }

/-- The body `{}`. -/
def bodyEmptyObject : String := "\x7b\x7d"

/-- A body whose only member is `result`, listing the scenario record. -/
def bodyResultOnly : String :=
  "\x7b\"result\":[\x7b\"id\":\"abc\",\"type\":\"A\",\"name\":\"host.example.com\",\"content\":\"1.1.1.1\",\"ttl\":120,\"proxied\":false\x7d]\x7d"

/-- A body reporting failure with the error list `["invalid zone"]`. -/
def bodyFailure : String :=
  "\x7b\"success\":false,\"errors\":[\"invalid zone\"]\x7d"

/-- A body reporting success and listing the scenario record. -/
def bodySuccess : String :=
  "\x7b\"success\":true,\"result\":[\x7b\"id\":\"abc\",\"type\":\"A\",\"name\":\"host.example.com\",\"content\":\"1.1.1.1\",\"ttl\":120,\"proxied\":false\x7d]\x7d"

/-- A reading of the four bodies above; every other body is rejected. -/
def readBody : String → Except String BodyMembers :=
  fun body =>
    if body = bodyEmptyObject then
      .ok { result := none, success := none, errors := none }
    else if body = bodyResultOnly then
      .ok { result := some [scenarioRecord], success := none, errors := none }
    else if body = bodyFailure then
      .ok { result := none, success := some false, errors := some ["invalid zone"] }
    else if body = bodySuccess then
      .ok { result := some [scenarioRecord], success := some true, errors := none }
    else .error "unexpected end of JSON input"

/-- A decoder that rejects every body. -/
def unmarshalRejects : String → Except String Response :=
  fun _ => .error "unexpected end of JSON input"

/-! ## The update calls of the nested loop -/

theorem updateCalls_append (xs ys : List Event) :
    updateCalls (xs ++ ys) = updateCalls xs ++ updateCalls ys := by
  induction xs with
  | nil => rfl
  | cons e es ih => cases e <;> simp [updateCalls, ih]

theorem updateCalls_updateDNS (a : UpdateArgs) (o : UpdateOutcome) :
    updateCalls (updateDNS a o) = [] := by
  cases o <;> simp [updateDNS, jsonMarshal, updateCalls]

/-- The update calls of the inner loop for one record: one call per occurrence
of the record's name among the targets when the record is stale, none otherwise;
the environment's outcomes play no part. -/
theorem updateCalls_innerLoop (cfg : Config) (ip : String) (update : Nat → UpdateOutcome)
    (R : DNSRecord) (targets : List String) (n : Nat) :
    updateCalls (innerLoop cfg ip update R targets n).1 =
      if R.Content ≠ ip then List.replicate (targets.count R.Name) (updateArgsOf cfg ip R)
      else [] := by
  induction targets generalizing n with
  | nil => simp [innerLoop, updateCalls]
  | cons t ts ih =>
    by_cases hn : R.Name = t
    · by_cases hc : R.Content = ip
      · have := ih n
        simp [innerLoop, hn, hc] at this ⊢
        exact this
      · have := ih (n + 1)
        subst hn
        simp [innerLoop, hc, updateCalls, updateCalls_append, updateCalls_updateDNS,
          List.replicate_succ] at this ⊢
        exact this
    · have := ih n
      have hn2 : ¬ (t = R.Name) := fun h => hn h.symm
      simp [innerLoop, hn, List.count_cons, hn2] at this ⊢
      exact this

theorem recordLoop_append (cfg : Config) (ip : String) (update : Nat → UpdateOutcome)
    (pre post : List DNSRecord) (n : Nat) :
    recordLoop cfg ip update (pre ++ post) n =
      ((recordLoop cfg ip update pre n).1
          ++ (recordLoop cfg ip update post (recordLoop cfg ip update pre n).2).1,
        (recordLoop cfg ip update post (recordLoop cfg ip update pre n).2).2) := by
  induction pre generalizing n with
  | nil => simp [recordLoop]
  | cons r rs ih => simp [recordLoop, ih, List.append_assoc]

/-- An update call is issued in the nested loop exactly when it is the call built
from some fetched record that is matched by a target and stale. -/
theorem mem_updateCalls_recordLoop (cfg : Config) (ip : String)
    (update : Nat → UpdateOutcome) (recs : List DNSRecord) (n : Nat) (a : UpdateArgs) :
    a ∈ updateCalls (recordLoop cfg ip update recs n).1 ↔
      ∃ R ∈ recs, R.Name ∈ cfg.records ∧ R.Content ≠ ip ∧ a = updateArgsOf cfg ip R := by
  induction recs generalizing n with
  | nil => simp [recordLoop, updateCalls]
  | cons r rs ih =>
    simp only [recordLoop, updateCalls_append, List.mem_append, ih, updateCalls_innerLoop,
      List.mem_cons, exists_eq_or_imp]
    by_cases hc : r.Content = ip
    · simp [hc]
    · simp [hc, List.mem_replicate, List.count_eq_zero]

/-! ## The nested loop: which records are updated, and with what -/

/-- C1: in the nested loop of `main`, the inner loop run for a fetched record `R`
issues at least one `updateDNS` call if and only if `R.Name` is equal (string
equality, case-sensitive) to some configured target and `R.Content` differs from
the observed address.  The events of the whole loop are those of the records
before `R`, then those of the inner loop for `R`, then those of the records
after; the calls of the whole loop are exactly the calls built from the matched
stale records; and a record named `Home.example.com` gets no call when the only
target is `home.example.com`. -/
theorem C1_update_iff_matched_and_stale (cfg : Config) (ip : String)
    (update : Nat → UpdateOutcome) :
    (∀ (R : DNSRecord) (n : Nat),
      updateCalls (innerLoop cfg ip update R cfg.records n).1 ≠ [] ↔
        (R.Name ∈ cfg.records ∧ R.Content ≠ ip)) ∧
    (∀ (pre post : List DNSRecord) (R : DNSRecord),
      ∃ n, (recordLoop cfg ip update (pre ++ R :: post) 0).1 =
        (recordLoop cfg ip update pre 0).1
          ++ (innerLoop cfg ip update R cfg.records n).1
          ++ (recordLoop cfg ip update post (innerLoop cfg ip update R cfg.records n).2).1) ∧
    (∀ (recs : List DNSRecord) (a : UpdateArgs),
      a ∈ updateCalls (recordLoop cfg ip update recs 0).1 ↔
        ∃ R ∈ recs, R.Name ∈ cfg.records ∧ R.Content ≠ ip ∧ a = updateArgsOf cfg ip R) ∧
    (∀ (id type content key zone : String) (ttl secs : Int) (proxied : Bool) (n : Nat),
      updateCalls (innerLoop
        { records := ["home.example.com"], apiKey := key, zoneID := zone,
          refreshSeconds := secs }
        ip update
        { ID := id, Type_ := type, Name := "Home.example.com", Content := content,
          TTL := ttl, Proxied := proxied }
        ["home.example.com"] n).1 = []) := by
  refine ⟨?_, ?_, ?_, ?_⟩
  · intro R n
    rw [updateCalls_innerLoop]
    by_cases hc : R.Content = ip
    · simp [hc]
    · simp [hc, List.count_eq_zero]
  · intro pre post R
    refine ⟨(recordLoop cfg ip update pre 0).2, ?_⟩
    rw [recordLoop_append]
    simp [recordLoop, List.append_assoc]
  · intro recs a
    exact mem_updateCalls_recordLoop cfg ip update recs 0 a
  · intro id type content key zone ttl secs proxied n
    rw [updateCalls_innerLoop]
    have hne : ¬ ("home.example.com" = "Home.example.com") := by decide
    simp [List.count_cons, hne]

/-- Counterexample for C2: the payload built for the scenario record, stale
against `2.2.2.2`, differs from the fetched record in more than the content: its
`ID` is the empty string while the fetched record's is `abc`, so the payload is
not the fetched record with only the content replaced. -/
theorem C2_counterexample :
    updateArgsOf scenarioConfig "2.2.2.2" scenarioRecord ∈
      updateCalls (innerLoop scenarioConfig "2.2.2.2" allSent scenarioRecord
        scenarioConfig.records 0).1 ∧
    (updateBody (updateArgsOf scenarioConfig "2.2.2.2" scenarioRecord)).ID = "" ∧
    scenarioRecord.ID = "abc" ∧
    ¬ ((updateBody (updateArgsOf scenarioConfig "2.2.2.2" scenarioRecord)).ID =
      scenarioRecord.ID) ∧
    ¬ (updateBody (updateArgsOf scenarioConfig "2.2.2.2" scenarioRecord) =
      { scenarioRecord with Content := "2.2.2.2" }) := by
  decide

/-- C2 (amended): every `updateDNS` call issued by the inner loop for a fetched
record `R` with observed address `ip` is addressed to the configured zone and to
`R.ID` (they form the request URL), and the struct built as payload has
`Type = R.Type`, `Name = R.Name`, `TTL = R.TTL`, `Proxied = R.Proxied`,
`Content = ip` and `ID` equal to the empty string: the payload is the fetched
record with the content replaced by `ip` and the id cleared, so the content and
the id are the only fields that can differ from the fetched record.  Any request
the call sends is a `PUT` to that URL carrying that payload, marshalled. -/
theorem C2_update_payload (cfg : Config) (ip : String) (update : Nat → UpdateOutcome)
    (R : DNSRecord) (n : Nat) (a : UpdateArgs)
    (h : a ∈ updateCalls (innerLoop cfg ip update R cfg.records n).1) :
    a.zoneID = cfg.zoneID ∧ a.recordID = R.ID ∧
    updateUrl a =
      "https://api.cloudflare.com/client/v4/zones/" ++ cfg.zoneID ++ "/dns_records/" ++ R.ID ∧
    (updateBody a).Type_ = R.Type_ ∧ (updateBody a).Name = R.Name ∧
    (updateBody a).TTL = R.TTL ∧ (updateBody a).Proxied = R.Proxied ∧
    (updateBody a).Content = ip ∧
    (updateBody a).ID = "" ∧
    updateBody a = { R with ID := "", Content := ip } ∧
    (∀ (o : UpdateOutcome) (req : Request), Event.http req ∈ updateDNS a o →
      req.method = "PUT" ∧ req.url = updateUrl a ∧
      req.body = some (marshalFields (updateBody a).jsonFields)) := by
  rw [updateCalls_innerLoop] at h
  have ha : a = updateArgsOf cfg ip R := by
    by_cases hc : R.Content = ip
    · simp [hc] at h
    · simp [hc, List.mem_replicate] at h
      exact h.2
  subst ha
  refine ⟨rfl, rfl, rfl, rfl, rfl, rfl, rfl, rfl, rfl, rfl, ?_⟩
  intro o req hreq
  cases o <;> simp [updateDNS, jsonMarshal] at hreq <;> subst hreq <;>
    exact ⟨rfl, rfl, rfl⟩

/-- Witness for C2: the scenario record, stale against `2.2.2.2`. -/
theorem C2_update_payload_witness :
    updateArgsOf scenarioConfig "2.2.2.2" scenarioRecord ∈
      updateCalls (innerLoop scenarioConfig "2.2.2.2" allSent scenarioRecord
        scenarioConfig.records 0).1 ∧
    (updateArgsOf scenarioConfig "2.2.2.2" scenarioRecord).recordID = "abc" ∧
    updateBody (updateArgsOf scenarioConfig "2.2.2.2" scenarioRecord) =
      { ID := "", Type_ := "A", Name := "host.example.com", Content := "2.2.2.2",
        TTL := 120, Proxied := false } :=
  have h := C2_update_payload scenarioConfig "2.2.2.2" allSent scenarioRecord 0
    (updateArgsOf scenarioConfig "2.2.2.2" scenarioRecord) (by decide)
  ⟨by decide, h.2.1, h.2.2.2.2.2.2.2.2.2.1⟩

/-! ## Idempotence and the number of calls -/

theorem updateCalls_recordLoop_eq_nil_iff (cfg : Config) (ip : String)
    (update : Nat → UpdateOutcome) (recs : List DNSRecord) (n : Nat) :
    updateCalls (recordLoop cfg ip update recs n).1 = [] ↔
      ∀ R ∈ recs, R.Name ∈ cfg.records → R.Content = ip := by
  rw [List.eq_nil_iff_forall_not_mem]
  constructor
  · intro h R hR hname
    by_contra hc
    exact h (updateArgsOf cfg ip R)
      ((mem_updateCalls_recordLoop cfg ip update recs n _).2 ⟨R, hR, hname, hc, rfl⟩)
  · intro h a ha
    obtain ⟨R, hR, hname, hc, -⟩ := (mem_updateCalls_recordLoop cfg ip update recs n a).1 ha
    exact hc (h R hR hname)

theorem exists_zip_of_mem_right {α β : Type} :
    ∀ (xs : List α) (ys : List β), ys.length = xs.length →
      ∀ y ∈ ys, ∃ x, (x, y) ∈ xs.zip ys
  | [], [], _, y, hy => by simp at hy
  | [], _ :: _, hlen, _, _ => by simp at hlen
  | _ :: _, [], hlen, _, _ => by simp at hlen
  | x :: xs, y' :: ys, hlen, y, hy => by
    rcases List.mem_cons.1 hy with h | h
    · exact ⟨x, by simp [h]⟩
    · obtain ⟨x', hx'⟩ := exists_zip_of_mem_right xs ys (by simpa using hlen) y h
      exact ⟨x', by simp [hx']⟩

/-- C3: idempotence of reconciliation.  First part: let `recs'` be the records
after the provider durably applied every update call of a first tick over `recs`
(same records in the same order, names unchanged; a record whose id is the id of
some call has that call's content; a record whose id no call names keeps its
content).  Then a second tick over `recs'` with the same observed address
issues no update call, whatever the outcomes.  Second part: a tick over records
whose matched records all have `Content` equal to the observed address issues no
update call. -/
theorem C3_idempotent (cfg : Config) (ip : String) (update update2 : Nat → UpdateOutcome)
    (recs recs' : List DNSRecord) :
    ((recs'.length = recs.length ∧
        ∀ p ∈ recs.zip recs', p.2.Name = p.1.Name ∧
          (∀ a ∈ updateCalls (recordLoop cfg ip update recs 0).1,
            a.recordID = p.1.ID → p.2.Content = a.recordContent) ∧
          ((∀ a ∈ updateCalls (recordLoop cfg ip update recs 0).1, a.recordID ≠ p.1.ID) →
            p.2.Content = p.1.Content)) →
      updateCalls (recordLoop cfg ip update2 recs' 0).1 = []) ∧
    ((∀ R ∈ recs, R.Name ∈ cfg.records → R.Content = ip) →
      updateCalls (recordLoop cfg ip update recs 0).1 = []) := by
  refine ⟨?_, (updateCalls_recordLoop_eq_nil_iff cfg ip update recs 0).2⟩
  rintro ⟨hlen, happ⟩
  rw [updateCalls_recordLoop_eq_nil_iff]
  intro R' hR' hname
  obtain ⟨R, hp⟩ := exists_zip_of_mem_right recs recs' hlen R' hR'
  obtain ⟨hn, hset, hkeep⟩ := happ (R, R') hp
  have hR : R ∈ recs := (List.of_mem_zip hp).1
  have hcontent : ∀ a ∈ updateCalls (recordLoop cfg ip update recs 0).1,
      a.recordContent = ip := by
    intro a ha
    obtain ⟨S, -, -, -, rfl⟩ := (mem_updateCalls_recordLoop cfg ip update recs 0 a).1 ha
    rfl
  by_cases hex : ∃ a ∈ updateCalls (recordLoop cfg ip update recs 0).1, a.recordID = R.ID
  · obtain ⟨a, ha, hid⟩ := hex
    exact (hset a ha hid).trans (hcontent a ha)
  · have hno : ∀ a ∈ updateCalls (recordLoop cfg ip update recs 0).1, a.recordID ≠ R.ID :=
      fun a ha hid => hex ⟨a, ha, hid⟩
    have hsame : R'.Content = R.Content := hkeep hno
    by_contra hc
    have hstale : R.Content ≠ ip := fun h => hc (hsame.trans h)
    have hmem : updateArgsOf cfg ip R ∈ updateCalls (recordLoop cfg ip update recs 0).1 :=
      (mem_updateCalls_recordLoop cfg ip update recs 0 _).2
        ⟨R, hR, hn ▸ hname, hstale, rfl⟩
    exact hno _ hmem rfl

/-- Witness for C3: the scenario record is stale against `2.2.2.2`, the provider
sets its content, and the next tick is silent; and the scenario record against
`1.1.1.1` needs no call. -/
theorem C3_idempotent_witness :
    updateCalls (recordLoop scenarioConfig "2.2.2.2" allSent [scenarioRecord] 0).1 =
      [updateArgsOf scenarioConfig "2.2.2.2" scenarioRecord] ∧
    updateCalls (recordLoop scenarioConfig "2.2.2.2" allSent
      [{ scenarioRecord with Content := "2.2.2.2" }] 0).1 = [] ∧
    updateCalls (recordLoop scenarioConfig "1.1.1.1" allSent [scenarioRecord] 0).1 = [] :=
  ⟨by decide,
    (C3_idempotent scenarioConfig "2.2.2.2" allSent allSent [scenarioRecord]
      [{ scenarioRecord with Content := "2.2.2.2" }]).1 (by decide),
    (C3_idempotent scenarioConfig "1.1.1.1" allSent allSent [scenarioRecord]
      [scenarioRecord]).2 (by decide)⟩

/-- Counterexample for C4: with the target `host.example.com` given twice, the one
stale fetched record receives two update calls, while one fetched record is
matched and stale. -/
theorem C4_counterexample :
    ¬ ((updateCalls (innerLoop repeatedTargetConfig "2.2.2.2" allSent scenarioRecord
        repeatedTargetConfig.records 0).1).length ≤ 1) ∧
    ¬ ((updateCalls
        (recordLoop repeatedTargetConfig "2.2.2.2" allSent [scenarioRecord] 0).1).length =
      ([scenarioRecord].filter (fun R =>
        decide (R.Name ∈ repeatedTargetConfig.records) &&
          decide (R.Content ≠ "2.2.2.2"))).length) ∧
    updateCalls (recordLoop repeatedTargetConfig "2.2.2.2" allSent [scenarioRecord] 0).1 =
      [updateArgsOf repeatedTargetConfig "2.2.2.2" scenarioRecord,
        updateArgsOf repeatedTargetConfig "2.2.2.2" scenarioRecord] := by
  decide

/-- C4 (amended): when the configured targets are pairwise distinct, every fetched
record receives at most one update call in a tick, and the update calls of the
tick are exactly the calls built from the fetched records that are matched and
stale, one each and in fetch order; so their number is the number of such
records. -/
theorem C4_one_call_per_stale_record (cfg : Config) (ip : String)
    (update : Nat → UpdateOutcome) (h : cfg.records.Nodup) :
    (∀ (R : DNSRecord) (n : Nat),
      (updateCalls (innerLoop cfg ip update R cfg.records n).1).length ≤ 1) ∧
    (∀ (recs : List DNSRecord),
      updateCalls (recordLoop cfg ip update recs 0).1 =
        (recs.filter (fun R =>
          decide (R.Name ∈ cfg.records) && decide (R.Content ≠ ip))).map
          (updateArgsOf cfg ip)) ∧
    (∀ (recs : List DNSRecord),
      (updateCalls (recordLoop cfg ip update recs 0).1).length =
        (recs.filter (fun R =>
          decide (R.Name ∈ cfg.records) && decide (R.Content ≠ ip))).length) := by
  have hseq : ∀ (recs : List DNSRecord) (n : Nat),
      updateCalls (recordLoop cfg ip update recs n).1 =
        (recs.filter (fun R =>
          decide (R.Name ∈ cfg.records) && decide (R.Content ≠ ip))).map
          (updateArgsOf cfg ip) := by
    intro recs
    induction recs with
    | nil => intro n; simp [recordLoop, updateCalls]
    | cons r rs ih =>
      intro n
      simp only [recordLoop, updateCalls_append, ih, updateCalls_innerLoop]
      by_cases hc : r.Content = ip
      · simp [hc, List.filter_cons]
      · by_cases hm : r.Name ∈ cfg.records
        · simp [hc, hm, List.filter_cons, List.count_eq_one_of_mem h hm]
        · simp [hc, hm, List.filter_cons, List.count_eq_zero.2 hm]
  refine ⟨?_, fun recs => hseq recs 0, fun recs => ?_⟩
  · intro R n
    rw [updateCalls_innerLoop]
    by_cases hc : R.Content = ip
    · simp [hc]
    · simp [hc]
      exact List.nodup_iff_count_le_one.1 h R.Name
  · rw [hseq recs 0, List.length_map]

/-- Witness for C4: two distinct targets match two different records, of which
only the first is stale against `2.2.2.2`; the tick issues exactly one call, the
one for the stale record. -/
theorem C4_one_call_per_stale_record_witness :
    twoTargetConfig.records.Nodup ∧
    updateCalls (recordLoop twoTargetConfig "2.2.2.2" allSent
      [scenarioRecord, otherRecord] 0).1 =
      [updateArgsOf twoTargetConfig "2.2.2.2" scenarioRecord] :=
  ⟨by decide,
    ((C4_one_call_per_stale_record twoTargetConfig "2.2.2.2" allSent (by decide)).2.1
      [scenarioRecord, otherRecord]).trans (by decide)⟩

/-! ## The request body of an update -/

/-- Counterexample for C5: the request sent for the stale scenario record has a
body whose members are not the five `type, name, content, ttl, proxied`: it
starts with a sixth member, `id`, holding the empty string. -/
theorem C5_counterexample :
    ¬ (∀ (req : Request) (body : List (String × JSONValue)),
        Event.http req ∈ updateDNS (updateArgsOf scenarioConfig "2.2.2.2" scenarioRecord) .sent →
        req.body = some body →
        body.map Prod.fst = ["type", "name", "content", "ttl", "proxied"]) ∧
    updateDNS (updateArgsOf scenarioConfig "2.2.2.2" scenarioRecord) .sent =
      [.http
        { method := "PUT",
          url := "https://api.cloudflare.com/client/v4/zones/zone/dns_records/abc",
          headers := [("Content-Type", "application/json"), ("Authorization", "Bearer key")],
          body := some [("id", .str ""), ("type", .str "A"), ("name", .str "host.example.com"),
            ("content", .str "2.2.2.2"), ("ttl", .num 120), ("proxied", .bool false)] }] := by
  refine ⟨fun h => ?_, by decide⟩
  have h6 := h
    { method := "PUT",
      url := "https://api.cloudflare.com/client/v4/zones/zone/dns_records/abc",
      headers := [("Content-Type", "application/json"), ("Authorization", "Bearer key")],
      body := some [("id", .str ""), ("type", .str "A"), ("name", .str "host.example.com"),
        ("content", .str "2.2.2.2"), ("ttl", .num 120), ("proxied", .bool false)] }
    [("id", .str ""), ("type", .str "A"), ("name", .str "host.example.com"),
      ("content", .str "2.2.2.2"), ("ttl", .num 120), ("proxied", .bool false)]
    (by decide) rfl
  revert h6
  decide

/-- C5 (amended): the JSON request body that `updateDNS` sends has exactly the
six members `id, type, name, content, ttl, proxied`, in this order, for every
call and outcome: `id` holds the empty string and the other five hold the call's
type, name, content, TTL and proxied flag. -/
theorem C5_body_members (a : UpdateArgs) (o : UpdateOutcome) (req : Request)
    (h : Event.http req ∈ updateDNS a o) :
    req.body = some [("id", .str ""), ("type", .str a.recordType), ("name", .str a.recordName),
      ("content", .str a.recordContent), ("ttl", .num a.recordTTL),
      ("proxied", .bool a.recordProxied)] ∧
    (∀ body, req.body = some body →
      body.map Prod.fst = ["id", "type", "name", "content", "ttl", "proxied"]) := by
  have hb : req.body = some [("id", .str ""), ("type", .str a.recordType),
      ("name", .str a.recordName), ("content", .str a.recordContent),
      ("ttl", .num a.recordTTL), ("proxied", .bool a.recordProxied)] := by
    cases o <;> simp [updateDNS, jsonMarshal] at h <;> subst h <;> rfl
  refine ⟨hb, ?_⟩
  intro body hbody
  rw [hb] at hbody
  cases hbody
  rfl

/-- Witness for C5: the request sent for the stale scenario record. -/
theorem C5_body_members_witness :
    Event.http (updateRequest (updateArgsOf scenarioConfig "2.2.2.2" scenarioRecord)
        (marshalFields (updateBody
          (updateArgsOf scenarioConfig "2.2.2.2" scenarioRecord)).jsonFields)) ∈
      updateDNS (updateArgsOf scenarioConfig "2.2.2.2" scenarioRecord) .sent ∧
    (updateRequest (updateArgsOf scenarioConfig "2.2.2.2" scenarioRecord)
        (marshalFields (updateBody
          (updateArgsOf scenarioConfig "2.2.2.2" scenarioRecord)).jsonFields)).body =
      some [("id", .str ""), ("type", .str "A"), ("name", .str "host.example.com"),
        ("content", .str "2.2.2.2"), ("ttl", .num 120), ("proxied", .bool false)] :=
  ⟨by decide,
    (C5_body_members (updateArgsOf scenarioConfig "2.2.2.2" scenarioRecord) .sent _
      (by decide)).1⟩

/-! ## One iteration of the loop of `main` -/

theorem getDNS_events (unmarshal : String → Except String Response) (zoneID apiKey : String)
    (o : FetchOutcome) :
    ∀ e ∈ (getDNS unmarshal zoneID apiKey o).1, e.isObserve = false ∧ e.isUpdate = false := by
  cases o <;> simp [getDNS, Event.isObserve, Event.isUpdate]

theorem getCurrentPublicIP_events (o : ObserveOutcome) :
    ∀ e ∈ (getCurrentPublicIP o).1, e.isUpdate = false := by
  cases o <;> simp [getCurrentPublicIP, Event.isUpdate]

theorem tick_fetch_error (unmarshal : String → Except String Response) (cfg : Config)
    (w : TickWorld) (err : String)
    (h : (getDNS unmarshal cfg.zoneID cfg.apiKey w.fetch).2 = .error err) :
    tick unmarshal cfg w =
      ([.callGetDNS cfg.zoneID cfg.apiKey] ++ (getDNS unmarshal cfg.zoneID cfg.apiKey w.fetch).1
        ++ [.print ("Error fetching DNS records: " ++ err ++ "\n")], false) := by
  simp [tick, h]

theorem tick_observe_error (unmarshal : String → Except String Response) (cfg : Config)
    (w : TickWorld) (recs : List DNSRecord) (err : String)
    (hf : (getDNS unmarshal cfg.zoneID cfg.apiKey w.fetch).2 = .ok recs)
    (ho : (getCurrentPublicIP w.observe).2 = .error err) :
    tick unmarshal cfg w =
      ([.callGetDNS cfg.zoneID cfg.apiKey] ++ (getDNS unmarshal cfg.zoneID cfg.apiKey w.fetch).1
        ++ [.callGetCurrentPublicIP] ++ (getCurrentPublicIP w.observe).1
        ++ [.print ("Error fetching public IP: " ++ err ++ "\n")], false) := by
  simp [tick, hf, ho]

theorem tick_ok (unmarshal : String → Except String Response) (cfg : Config)
    (w : TickWorld) (recs : List DNSRecord) (ip : String)
    (hf : (getDNS unmarshal cfg.zoneID cfg.apiKey w.fetch).2 = .ok recs)
    (ho : (getCurrentPublicIP w.observe).2 = .ok ip) :
    tick unmarshal cfg w =
      ([.callGetDNS cfg.zoneID cfg.apiKey] ++ (getDNS unmarshal cfg.zoneID cfg.apiKey w.fetch).1
        ++ [.callGetCurrentPublicIP] ++ (getCurrentPublicIP w.observe).1
        ++ (recordLoop cfg ip w.update recs 0).1
        ++ [.sleep (wrapInt64 (wrapInt64 cfg.refreshSeconds * 1000000000))], true) := by
  simp [tick, hf, ho]

/-- The loop goes on after an iteration exactly when both the fetch and the
address lookup of that iteration succeed. -/
theorem tick_continues_iff (unmarshal : String → Except String Response) (cfg : Config)
    (w : TickWorld) :
    (tick unmarshal cfg w).2 = true ↔
      (∃ recs, (getDNS unmarshal cfg.zoneID cfg.apiKey w.fetch).2 = .ok recs) ∧
      (∃ ip, (getCurrentPublicIP w.observe).2 = .ok ip) := by
  cases hf : (getDNS unmarshal cfg.zoneID cfg.apiKey w.fetch).2 with
  | error err => simp [tick_fetch_error unmarshal cfg w err hf]
  | ok recs =>
    cases ho : (getCurrentPublicIP w.observe).2 with
    | error err => simp [tick_observe_error unmarshal cfg w recs err hf ho]
    | ok ip => simp [tick_ok unmarshal cfg w recs ip hf ho]

/-! ## The loop of `main` -/

theorem mainLoop_stops (unmarshal : String → Except String Response) (cfg : Config)
    (world : Nat → TickWorld) :
    ∀ (fuel i j : Nat), j < (mainLoop unmarshal cfg world fuel i).1.length →
      (tick unmarshal cfg (world (i + j))).2 = false →
      (mainLoop unmarshal cfg world fuel i).1.length = j + 1 ∧
        (mainLoop unmarshal cfg world fuel i).2 = .exited 0
  | 0, _, _, h, _ => by simp [mainLoop] at h
  | fuel + 1, i, j, h, hfail => by
    by_cases ht : (tick unmarshal cfg (world i)).2 = true
    · simp only [mainLoop, ht, if_true] at h ⊢
      cases j with
      | zero => simp [ht] at hfail
      | succ j =>
        have hfail2 : (tick unmarshal cfg (world (i + 1 + j))).2 = false := by
          rw [show i + 1 + j = i + (j + 1) by omega]; exact hfail
        have := mainLoop_stops unmarshal cfg world fuel (i + 1) j (by simpa using h) hfail2
        simp [this.1, this.2]
    · simp only [mainLoop, ht] at h ⊢
      simp at h
      subst h
      simp

theorem mainLoop_continues (unmarshal : String → Except String Response) (cfg : Config)
    (world : Nat → TickWorld) :
    ∀ (fuel i j : Nat), j < (mainLoop unmarshal cfg world fuel i).1.length →
      (tick unmarshal cfg (world (i + j))).2 = true → j + 1 < fuel →
      j + 1 < (mainLoop unmarshal cfg world fuel i).1.length
  | 0, _, _, h, _, _ => by simp [mainLoop] at h
  | fuel + 1, i, j, h, hok, hfuel => by
    by_cases ht : (tick unmarshal cfg (world i)).2 = true
    · simp only [mainLoop, ht, if_true] at h ⊢
      cases j with
      | zero =>
        cases fuel with
        | zero => omega
        | succ fuel =>
          by_cases ht2 : (tick unmarshal cfg (world (i + 1))).2 = true <;>
            simp [mainLoop, ht2]
      | succ j =>
        have hok2 : (tick unmarshal cfg (world (i + 1 + j))).2 = true := by
          rw [show i + 1 + j = i + (j + 1) by omega]; exact hok
        have := mainLoop_continues unmarshal cfg world fuel (i + 1) j (by simpa using h) hok2
          (by omega)
        simpa using this
    · simp only [mainLoop, ht] at h
      simp at h
      subst h
      simp [ht] at hok

theorem mainLoop_all_ok (unmarshal : String → Except String Response) (cfg : Config)
    (world : Nat → TickWorld) :
    ∀ (fuel i : Nat), (∀ k < fuel, (tick unmarshal cfg (world (i + k))).2 = true) →
      (mainLoop unmarshal cfg world fuel i).1.length = fuel ∧
        (mainLoop unmarshal cfg world fuel i).2 = .running
  | 0, _, _ => by simp [mainLoop]
  | fuel + 1, i, h => by
    have ht : (tick unmarshal cfg (world i)).2 = true := by simpa using h 0 (Nat.succ_pos _)
    have := mainLoop_all_ok unmarshal cfg world fuel (i + 1) (fun k hk => by
      rw [show i + 1 + k = i + (k + 1) by omega]; exact h (k + 1) (by omega))
    simp [mainLoop, ht, this.1, this.2]

theorem mainLoop_exited (unmarshal : String → Except String Response) (cfg : Config)
    (world : Nat → TickWorld) :
    ∀ (fuel i c : Nat), (mainLoop unmarshal cfg world fuel i).2 = .exited c →
      c = 0 ∧ ∃ j, (mainLoop unmarshal cfg world fuel i).1.length = j + 1 ∧
        (tick unmarshal cfg (world (i + j))).2 = false
  | 0, _, _, h => by simp [mainLoop] at h
  | fuel + 1, i, c, h => by
    by_cases ht : (tick unmarshal cfg (world i)).2 = true
    · simp only [mainLoop, ht, if_true] at h ⊢
      obtain ⟨hc, j, hj1, hj2⟩ := mainLoop_exited unmarshal cfg world fuel (i + 1) c h
      refine ⟨hc, j + 1, by simp [hj1], ?_⟩
      rw [show i + (j + 1) = i + 1 + j by omega]
      exact hj2
    · simp only [mainLoop, ht] at h ⊢
      simp at h
      exact ⟨h.symm, 0, by simp, by simpa using ht⟩

theorem result_error_or_ok {α : Type} (r : Except String α) :
    (∃ err, r = .error err) ∨ (∃ a, r = .ok a) := by
  cases r with
  | error err => exact Or.inl ⟨err, rfl⟩
  | ok a => exact Or.inr ⟨a, rfl⟩

/-- The update calls of the nested loop do not depend on the outcomes of the
update calls. -/
theorem updateCalls_recordLoop_outcomes (cfg : Config) (ip : String)
    (u1 u2 : Nat → UpdateOutcome) (recs : List DNSRecord) :
    ∀ (n m : Nat), updateCalls (recordLoop cfg ip u1 recs n).1 =
      updateCalls (recordLoop cfg ip u2 recs m).1 := by
  induction recs with
  | nil => intro n m; simp [recordLoop]
  | cons r rs ih =>
    intro n m
    simp only [recordLoop, updateCalls_append, updateCalls_innerLoop]
    rw [ih]

theorem mainLoop_reaches (unmarshal : String → Except String Response) (cfg : Config)
    (world : Nat → TickWorld) :
    ∀ (fuel i j : Nat), (∀ k < j, (tick unmarshal cfg (world (i + k))).2 = true) → j < fuel →
      (mainLoop unmarshal cfg world fuel i).1[j]? = some (tick unmarshal cfg (world (i + j))).1
  | 0, _, _, _, h => by omega
  | fuel + 1, i, 0, _, _ => by
    by_cases ht : (tick unmarshal cfg (world i)).2 = true <;> simp [mainLoop, ht]
  | fuel + 1, i, j + 1, hok, h => by
    have ht : (tick unmarshal cfg (world i)).2 = true := by simpa using hok 0 (Nat.succ_pos _)
    have := mainLoop_reaches unmarshal cfg world fuel (i + 1) j (fun k hk => by
      rw [show i + 1 + k = i + (k + 1) by omega]; exact hok (k + 1) (by omega)) (by omega)
    simp only [mainLoop, ht, if_true, List.getElem?_cons_succ, this]
    rw [show i + 1 + j = i + (j + 1) by omega]

/-- Iteration `j` of `main` runs, with the events of `tick`, once every earlier
iteration fetched and observed successfully and the program is let run for more
than `j` iterations. -/
theorem main_reaches (unmarshal : String → Except String Response) (cfg : Config)
    (world : Nat → TickWorld) (j fuel : Nat)
    (hreach : ∀ k < j,
      (∃ recs, (getDNS unmarshal cfg.zoneID cfg.apiKey (world k).fetch).2 = .ok recs) ∧
      (∃ ip, (getCurrentPublicIP (world k).observe).2 = .ok ip))
    (hfuel : j < fuel) :
    (mainLoop unmarshal cfg world fuel 0).1[j]? = some (tick unmarshal cfg (world j)).1 ∧
    j < (mainLoop unmarshal cfg world fuel 0).1.length := by
  have h := mainLoop_reaches unmarshal cfg world fuel 0 j (fun k hk => by
    rw [Nat.zero_add]; exact (tick_continues_iff unmarshal cfg (world k)).2 (hreach k hk)) hfuel
  rw [Nat.zero_add] at h
  refine ⟨h, ?_⟩
  by_contra hge
  rw [List.getElem?_eq_none (by omega)] at h
  cases h

/-- The fetch or the address lookup of an iteration fails exactly when the loop
does not go on after it. -/
theorem tick_stops_iff (unmarshal : String → Except String Response) (cfg : Config)
    (w : TickWorld) :
    ((∃ err, (getDNS unmarshal cfg.zoneID cfg.apiKey w.fetch).2 = .error err) ∨
        (∃ err, (getCurrentPublicIP w.observe).2 = .error err)) ↔
      (tick unmarshal cfg w).2 = false := by
  rw [← Bool.not_eq_true, tick_continues_iff]
  constructor
  · rintro (⟨err, h⟩ | ⟨err, h⟩) ⟨⟨recs, h1⟩, ip, h2⟩
    · rw [h] at h1; cases h1
    · rw [h] at h2; cases h2
  · intro hn
    rcases result_error_or_ok (getDNS unmarshal cfg.zoneID cfg.apiKey w.fetch).2 with h1 | h1
    · exact Or.inl h1
    · rcases result_error_or_ok (getCurrentPublicIP w.observe).2 with h2 | h2
      · exact Or.inr h2
      · exact absurd ⟨h1, h2⟩ hn

/-! ## Failures of the fetch and of the address lookup -/

/-- C6: fetch and observe failures are fatal and write-free.  Let iteration `j`
be reached (every earlier iteration fetched and observed successfully), and let
the program run for more than `j` iterations.  If `getDNS` fails in iteration
`j`, the iteration runs and contains no call of `getCurrentPublicIP` and no call
of `updateDNS`, and it is the last iteration however long the program is let
run.  If `getDNS` succeeds and `getCurrentPublicIP` fails, the iteration contains
no call of `updateDNS` and is the last iteration. -/
theorem C6_failures_fatal_write_free (unmarshal : String → Except String Response)
    (cfg : Config) (world : Nat → TickWorld) (j : Nat)
    (hreach : ∀ k < j,
      (∃ recs, (getDNS unmarshal cfg.zoneID cfg.apiKey (world k).fetch).2 = .ok recs) ∧
      (∃ ip, (getCurrentPublicIP (world k).observe).2 = .ok ip)) :
    ((∃ err, (getDNS unmarshal cfg.zoneID cfg.apiKey (world j).fetch).2 = .error err) →
      ∀ fuel, j < fuel → ∃ evs,
        (main unmarshal cfg world fuel).2.1[j]? = some evs ∧
        (∀ e ∈ evs, e.isObserve = false ∧ e.isUpdate = false) ∧
        (main unmarshal cfg world fuel).2.1.length = j + 1) ∧
    (((∃ recs, (getDNS unmarshal cfg.zoneID cfg.apiKey (world j).fetch).2 = .ok recs) ∧
        ∃ err, (getCurrentPublicIP (world j).observe).2 = .error err) →
      ∀ fuel, j < fuel → ∃ evs,
        (main unmarshal cfg world fuel).2.1[j]? = some evs ∧
        (∀ e ∈ evs, e.isUpdate = false) ∧
        (main unmarshal cfg world fuel).2.1.length = j + 1) := by
  constructor
  · rintro ⟨err, herr⟩ fuel hfuel
    obtain ⟨hget, hlt⟩ := main_reaches unmarshal cfg world j fuel hreach hfuel
    have ht := tick_fetch_error unmarshal cfg (world j) err herr
    have hfalse : (tick unmarshal cfg (world (0 + j))).2 = false := by
      rw [Nat.zero_add, ht]
    refine ⟨_, hget, ?_, (mainLoop_stops unmarshal cfg world fuel 0 j hlt hfalse).1⟩
    intro e he
    rw [ht] at he
    simp only [List.mem_append, List.mem_singleton] at he
    rcases he with (he | he) | he
    · subst he; exact ⟨rfl, rfl⟩
    · exact getDNS_events unmarshal cfg.zoneID cfg.apiKey (world j).fetch e he
    · subst he; exact ⟨rfl, rfl⟩
  · rintro ⟨⟨recs, hrecs⟩, err, herr⟩ fuel hfuel
    obtain ⟨hget, hlt⟩ := main_reaches unmarshal cfg world j fuel hreach hfuel
    have ht := tick_observe_error unmarshal cfg (world j) recs err hrecs herr
    have hfalse : (tick unmarshal cfg (world (0 + j))).2 = false := by
      rw [Nat.zero_add, ht]
    refine ⟨_, hget, ?_, (mainLoop_stops unmarshal cfg world fuel 0 j hlt hfalse).1⟩
    intro e he
    rw [ht] at he
    simp only [List.mem_append, List.mem_singleton] at he
    rcases he with (((he | he) | he) | he) | he
    · subst he; rfl
    · exact (getDNS_events unmarshal cfg.zoneID cfg.apiKey (world j).fetch e he).2
    · subst he; rfl
    · exact getCurrentPublicIP_events (world j).observe e he
    · subst he; rfl

/-- Witness for C6: in a first run the first iteration succeeds and the fetch of
the second fails in transport; in a second run the fetch succeeds and the address
lookup fails on the first iteration. -/
theorem C6_failures_fatal_write_free_witness :
    (main unmarshalScenario scenarioConfig fetchFailsLater 7).2.1.length = 2 ∧
    (main unmarshalScenario scenarioConfig fetchFailsLater 7).2.1[1]? =
      some [.callGetDNS "zone" "key", .http (getDNSRequest "zone" "key"),
        .print "Error fetching DNS records: connection reset\n"] ∧
    (main unmarshalScenario scenarioConfig observeFailsWorld 7).2.1.length = 1 ∧
    (main unmarshalScenario scenarioConfig observeFailsWorld 7).2.1[0]? =
      some [.callGetDNS "zone" "key", .http (getDNSRequest "zone" "key"),
        .callGetCurrentPublicIP, .http publicIPRequest,
        .print "Error fetching public IP: error fetching public IP: no route to host\n"] :=
  have h1 := (C6_failures_fatal_write_free unmarshalScenario scenarioConfig fetchFailsLater 1
    (fun k hk => by
      have hk0 : k = 0 := by omega
      subst hk0
      exact ⟨⟨[scenarioRecord], rfl⟩, "2.2.2.2", rfl⟩)).1 ⟨"connection reset", rfl⟩ 7
    (by decide)
  have h2 := (C6_failures_fatal_write_free unmarshalScenario scenarioConfig observeFailsWorld 0
    (fun k hk => absurd hk (Nat.not_lt_zero k))).2
    ⟨⟨[scenarioRecord], rfl⟩, "error fetching public IP: no route to host", rfl⟩ 7
    (by decide)
  ⟨h1.choose_spec.2.2, by decide, h2.choose_spec.2.2, by decide⟩

/-! ## Exit of the process -/

/-- Counterexample for C7: when the provider answers `{success: false, errors:
["invalid zone"]}` the fetch fails on the first iteration and the process exits,
but with status 0, not with a non-zero status. -/
theorem C7_counterexample :
    (∃ err, (getDNS unmarshalInvalidZone scenarioConfig.zoneID scenarioConfig.apiKey
      (updatesFailWorld 0).fetch).2 = .error err) ∧
    (main unmarshalInvalidZone scenarioConfig updatesFailWorld 5).2.2 = .exited 0 ∧
    ¬ (∃ c, c ≠ 0 ∧ (main unmarshalInvalidZone scenarioConfig updatesFailWorld 5).2.2 = .exited c) := by
  refine ⟨⟨_, rfl⟩, by decide, ?_⟩
  rintro ⟨c, hc, h⟩
  have h0 : (main unmarshalInvalidZone scenarioConfig updatesFailWorld 5).2.2 = .exited 0 := by
    decide
  rw [h0] at h
  cases h
  exact hc rfl

/-- C7 (amended): the process exits, with status 0 (its `main` returns), when the
record fetch or the address observation fails on an iteration, and in every
other case it never exits on its own.  Let iteration `j` be reached (every
earlier iteration fetched and observed successfully).  If the fetch or the
observation of iteration `j` fails, then however long the program is let run
beyond `j` iterations it has exited with status 0 after exactly `j + 1`
iterations; if both succeed, iteration `j + 1` runs.  An exit always has
status 0 and comes right after an iteration whose fetch or observation failed;
and while every iteration fetches and observes successfully the program is
still running, with as many iterations done as it was given. -/
theorem C7_exit_status (unmarshal : String → Except String Response)
    (cfg : Config) (world : Nat → TickWorld) (j : Nat)
    (hreach : ∀ k < j,
      (∃ recs, (getDNS unmarshal cfg.zoneID cfg.apiKey (world k).fetch).2 = .ok recs) ∧
      (∃ ip, (getCurrentPublicIP (world k).observe).2 = .ok ip)) :
    (((∃ err, (getDNS unmarshal cfg.zoneID cfg.apiKey (world j).fetch).2 = .error err) ∨
        (∃ err, (getCurrentPublicIP (world j).observe).2 = .error err)) →
      ∀ fuel, j < fuel →
        (main unmarshal cfg world fuel).2.2 = .exited 0 ∧
        (main unmarshal cfg world fuel).2.1.length = j + 1) ∧
    (((∃ recs, (getDNS unmarshal cfg.zoneID cfg.apiKey (world j).fetch).2 = .ok recs) ∧
        (∃ ip, (getCurrentPublicIP (world j).observe).2 = .ok ip)) →
      ∀ fuel, j + 1 < fuel → j + 1 < (main unmarshal cfg world fuel).2.1.length) ∧
    (∀ fuel c, (main unmarshal cfg world fuel).2.2 = .exited c →
      c = 0 ∧ ∃ i, (main unmarshal cfg world fuel).2.1.length = i + 1 ∧
        ((∃ err, (getDNS unmarshal cfg.zoneID cfg.apiKey (world i).fetch).2 = .error err) ∨
          (∃ err, (getCurrentPublicIP (world i).observe).2 = .error err))) ∧
    (∀ fuel, (∀ k < fuel,
        (∃ recs, (getDNS unmarshal cfg.zoneID cfg.apiKey (world k).fetch).2 = .ok recs) ∧
        (∃ ip, (getCurrentPublicIP (world k).observe).2 = .ok ip)) →
      (main unmarshal cfg world fuel).2.2 = .running ∧
      (main unmarshal cfg world fuel).2.1.length = fuel) := by
  refine ⟨?_, ?_, ?_, ?_⟩
  · intro h fuel hfuel
    obtain ⟨-, hlt⟩ := main_reaches unmarshal cfg world j fuel hreach hfuel
    have hfalse : (tick unmarshal cfg (world (0 + j))).2 = false := by
      rw [Nat.zero_add]; exact (tick_stops_iff unmarshal cfg (world j)).1 h
    have := mainLoop_stops unmarshal cfg world fuel 0 j hlt hfalse
    exact ⟨this.2, this.1⟩
  · intro h fuel hfuel
    obtain ⟨-, hlt⟩ := main_reaches unmarshal cfg world j fuel hreach (by omega)
    have hok : (tick unmarshal cfg (world (0 + j))).2 = true := by
      rw [Nat.zero_add]; exact (tick_continues_iff unmarshal cfg (world j)).2 h
    exact mainLoop_continues unmarshal cfg world fuel 0 j hlt hok hfuel
  · intro fuel c hc
    obtain ⟨h0, i, hi1, hi2⟩ := mainLoop_exited unmarshal cfg world fuel 0 c hc
    rw [Nat.zero_add] at hi2
    exact ⟨h0, i, hi1, (tick_stops_iff unmarshal cfg (world i)).2 hi2⟩
  · intro fuel h
    have := mainLoop_all_ok unmarshal cfg world fuel 0 (fun k hk => by
      rw [Nat.zero_add]; exact (tick_continues_iff unmarshal cfg (world k)).2 (h k hk))
    exact ⟨this.2, this.1⟩

/-- Witness for C7: a run whose second fetch fails exits with status 0 after two
iterations; a run of five iterations that all fetch and observe successfully is
still running after the five. -/
theorem C7_exit_status_witness :
    (main unmarshalScenario scenarioConfig fetchFailsLater 7).2.2 = .exited 0 ∧
    (main unmarshalScenario scenarioConfig fetchFailsLater 7).2.1.length = 2 ∧
    (main unmarshalScenario scenarioConfig updatesFailWorld 5).2.2 = .running ∧
    (main unmarshalScenario scenarioConfig updatesFailWorld 5).2.1.length = 5 :=
  have h1 := (C7_exit_status unmarshalScenario scenarioConfig fetchFailsLater 1
    (fun k hk => by
      have hk0 : k = 0 := by omega
      subst hk0
      exact ⟨⟨[scenarioRecord], rfl⟩, "2.2.2.2", rfl⟩)).1
    (Or.inl ⟨"connection reset", rfl⟩) 7 (by decide)
  have h2 := (C7_exit_status unmarshalScenario scenarioConfig updatesFailWorld 0
    (fun k hk => absurd hk (Nat.not_lt_zero k))).2.2.2 5
    (fun _ _ => ⟨⟨[scenarioRecord], rfl⟩, "2.2.2.2", rfl⟩)
  ⟨h1.1, h1.2, h2.1, h2.2⟩

/-! ## Failures of update calls -/

/-- C9: update failures are non-fatal.  Let iteration `j` be reached, let its
fetch and observation succeed, and let the program run for more than `j`
iterations.  Then the iteration runs, its sequence of `updateDNS` calls is the
same whatever the outcome of each update call (it is the sequence of the nested
loop under any outcomes), the iteration ends with the sleep, and the next
iteration runs if the program is let run longer. -/
theorem C9_update_failures_nonfatal (unmarshal : String → Except String Response)
    (cfg : Config) (world : Nat → TickWorld) (j : Nat) (recs : List DNSRecord) (ip : String)
    (hreach : ∀ k < j,
      (∃ recs, (getDNS unmarshal cfg.zoneID cfg.apiKey (world k).fetch).2 = .ok recs) ∧
      (∃ ip, (getCurrentPublicIP (world k).observe).2 = .ok ip))
    (hf : (getDNS unmarshal cfg.zoneID cfg.apiKey (world j).fetch).2 = .ok recs)
    (ho : (getCurrentPublicIP (world j).observe).2 = .ok ip) :
    ∀ fuel, j < fuel → ∃ evs,
      (main unmarshal cfg world fuel).2.1[j]? = some evs ∧
      (∀ outcomes : Nat → UpdateOutcome,
        updateCalls evs = updateCalls (tick unmarshal cfg
          { fetch := (world j).fetch, observe := (world j).observe, update := outcomes }).1) ∧
      (∀ outcomes : Nat → UpdateOutcome,
        updateCalls evs = updateCalls (recordLoop cfg ip outcomes recs 0).1) ∧
      evs.getLast? = some (.sleep (wrapInt64 (wrapInt64 cfg.refreshSeconds * 1000000000))) ∧
      (j + 1 < fuel → j + 1 < (main unmarshal cfg world fuel).2.1.length) := by
  intro fuel hfuel
  obtain ⟨hget, hlt⟩ := main_reaches unmarshal cfg world j fuel hreach hfuel
  have ht := tick_ok unmarshal cfg (world j) recs ip hf ho
  have hcalls : ∀ (w : TickWorld),
      (getDNS unmarshal cfg.zoneID cfg.apiKey w.fetch).2 = .ok recs →
      (getCurrentPublicIP w.observe).2 = .ok ip →
      updateCalls (tick unmarshal cfg w).1 = updateCalls (recordLoop cfg ip w.update recs 0).1 := by
    intro w h1 h2
    have hnoG : updateCalls (getDNS unmarshal cfg.zoneID cfg.apiKey w.fetch).1 = [] := by
      cases w.fetch <;> simp [getDNS, updateCalls]
    have hnoO : updateCalls (getCurrentPublicIP w.observe).1 = [] := by
      cases w.observe <;> simp [getCurrentPublicIP, updateCalls]
    rw [tick_ok unmarshal cfg w recs ip h1 h2]
    simp [updateCalls_append, updateCalls, hnoG, hnoO]
  have hall : ∀ outcomes : Nat → UpdateOutcome,
      updateCalls (tick unmarshal cfg (world j)).1 =
        updateCalls (recordLoop cfg ip outcomes recs 0).1 := by
    intro outcomes
    rw [hcalls (world j) hf ho]
    exact updateCalls_recordLoop_outcomes cfg ip (world j).update outcomes recs 0 0
  refine ⟨_, hget, ?_, hall, ?_, ?_⟩
  · intro outcomes
    rw [hall outcomes]
    exact (hcalls ⟨(world j).fetch, (world j).observe, outcomes⟩ hf ho).symm
  · rw [ht]
    exact List.getLast?_concat _
  · intro hfuel2
    have hok : (tick unmarshal cfg (world (0 + j))).2 = true := by
      rw [Nat.zero_add, ht]
    exact mainLoop_continues unmarshal cfg world fuel 0 j hlt hok hfuel2

/-- Witness for C9: every update call fails in transport, the scenario record is
stale on each iteration, and still the second iteration makes its call, sleeps,
and the third iteration runs. -/
theorem C9_update_failures_nonfatal_witness :
    (main unmarshalScenario scenarioConfig updatesFailWorld 5).2.1[1]? =
      some (tick unmarshalScenario scenarioConfig (updatesFailWorld 1)).1 ∧
    updateCalls (tick unmarshalScenario scenarioConfig (updatesFailWorld 1)).1 =
      [updateArgsOf scenarioConfig "2.2.2.2" scenarioRecord] ∧
    (tick unmarshalScenario scenarioConfig (updatesFailWorld 1)).1.getLast? =
      some (.sleep 300000000000) ∧
    2 < (main unmarshalScenario scenarioConfig updatesFailWorld 5).2.1.length := by
  obtain ⟨evs, h1, -, h3, h4, h5⟩ :=
    C9_update_failures_nonfatal unmarshalScenario scenarioConfig updatesFailWorld 1
      [scenarioRecord] "2.2.2.2"
      (fun _ _ => ⟨⟨[scenarioRecord], rfl⟩, "2.2.2.2", rfl⟩) rfl rfl 5 (by decide)
  have hrun : (main unmarshalScenario scenarioConfig updatesFailWorld 5).2.1[1]? =
      some (tick unmarshalScenario scenarioConfig (updatesFailWorld 1)).1 := by decide
  have he : evs = (tick unmarshalScenario scenarioConfig (updatesFailWorld 1)).1 := by
    rw [hrun] at h1
    exact (Option.some.inj h1).symm
  subst he
  exact ⟨h1, (h3 allSent).trans (by decide), h4.trans (by decide), h5 (by decide)⟩

/-! ## Decoding the fetch response -/

theorem parse_error_ne_provider_error (e1 e2 : String) :
    "error parsing JSON: " ++ e1 ≠ "API returned errors: " ++ e2 := by
  intro h
  have h2 := congrArg String.data h
  simp [String.data_append] at h2

/-- The three outcomes of the decoding done by `getDNS` once the body is read, for
any decoder: the parse error, the provider error with the formatted error list
when the decoded `Success` is false, the decoded records otherwise; and a
provider error comes only from a decoded response whose `Success` is false. -/
theorem decodeResponse_outcomes (unmarshal : String → Except String Response)
    (body : String) :
    (∀ err, unmarshal body = .error err →
      decodeResponse unmarshal body = .error ("error parsing JSON: " ++ err)) ∧
    (∀ r, unmarshal body = .ok r → r.Success = false →
      decodeResponse unmarshal body =
        .error ("API returned errors: " ++ fmtStrings r.Errors)) ∧
    (∀ r, unmarshal body = .ok r → r.Success = true →
      decodeResponse unmarshal body = .ok r.Result) ∧
    (∀ e, decodeResponse unmarshal body = .error ("API returned errors: " ++ e) →
      ∃ r, unmarshal body = .ok r ∧ r.Success = false ∧ e = fmtStrings r.Errors) := by
  refine ⟨?_, ?_, ?_, ?_⟩
  · intro err h
    simp [decodeResponse, h]
  · intro r h hs
    simp [decodeResponse, h, hs]
  · intro r h hs
    simp [decodeResponse, h, hs]
  · intro e h
    cases hu : unmarshal body with
    | error err =>
      simp only [decodeResponse, hu] at h
      exact absurd (Except.error.inj h) (parse_error_ne_provider_error err e)
    | ok r =>
      cases hs : r.Success with
      | true => simp [decodeResponse, hu, hs] at h
      | false =>
        simp only [decodeResponse, hu, hs] at h
        have h2 := congrArg String.data (Except.error.inj h)
        simp only [String.data_append, List.append_cancel_left_eq] at h2
        exact ⟨r, rfl, hs, (String.ext h2).symm⟩

/-- Counterexample for C8: the body `{}` parses and reports nothing, neither
success nor failure, and the call fails with the provider error
"API returned errors: []"; the body with only a `result` member parses, does not
report failure, and the call does not return its result records but fails with
the same provider error.  So a provider error does not arise only when the
response explicitly reports failure. -/
theorem C8_counterexample :
    readBody bodyEmptyObject = .ok { result := none, success := none, errors := none } ∧
    decodeResponse (jsonUnmarshal readBody) bodyEmptyObject =
      .error "API returned errors: []" ∧
    readBody bodyResultOnly =
      .ok { result := some [scenarioRecord], success := none, errors := none } ∧
    decodeResponse (jsonUnmarshal readBody) bodyResultOnly =
      .error "API returned errors: []" ∧
    ¬ (∀ (members : BodyMembers) (e : String),
        readBody bodyEmptyObject = .ok members →
        decodeResponse (jsonUnmarshal readBody) bodyEmptyObject =
          .error ("API returned errors: " ++ e) →
        members.success = some false) := by
  refine ⟨rfl, rfl, rfl, rfl, fun h => ?_⟩
  have hs := h { result := none, success := none, errors := none } "[]" rfl rfl
  cases hs

/-- C8 (amended): the decoding done by `getDNS` once the body is read.  If the body
cannot be parsed into a `Response`, the call fails with the parse error ("error
parsing JSON: ..."); if it parses and does not report success (its success
member is false, or is absent or null, which leaves the flag at Go's zero value
false), the call fails with the provider error ("API returned errors: ..."
followed by the response's error list, empty when the body has none); otherwise,
when the success member is true, the call returns the response's result records,
the same list in the same order.  A provider error arises exactly from a parsed
body whose success member is not true, whether or not the body explicitly
reports failure; and `getDNS` returns this decoding when the body was read.  The
first four parts hold for any decoder in place of `json.Unmarshal`, read on the
decoded `Success` flag. -/
theorem C8_decode (unmarshal : String → Except String Response)
    (read : String → Except String BodyMembers) (body : String) :
    (∀ err, unmarshal body = .error err →
      decodeResponse unmarshal body = .error ("error parsing JSON: " ++ err)) ∧
    (∀ r, unmarshal body = .ok r → r.Success = false →
      decodeResponse unmarshal body =
        .error ("API returned errors: " ++ fmtStrings r.Errors)) ∧
    (∀ r, unmarshal body = .ok r → r.Success = true →
      decodeResponse unmarshal body = .ok r.Result) ∧
    (∀ e, decodeResponse unmarshal body = .error ("API returned errors: " ++ e) →
      ∃ r, unmarshal body = .ok r ∧ r.Success = false ∧ e = fmtStrings r.Errors) ∧
    (∀ zoneID apiKey,
      (getDNS unmarshal zoneID apiKey (.body body)).2 = decodeResponse unmarshal body) ∧
    (∀ err, read body = .error err →
      decodeResponse (jsonUnmarshal read) body = .error ("error parsing JSON: " ++ err)) ∧
    (∀ members, read body = .ok members → members.success ≠ some true →
      decodeResponse (jsonUnmarshal read) body =
        .error ("API returned errors: " ++ fmtStrings (members.errors.getD []))) ∧
    (∀ members, read body = .ok members → members.success = some true →
      decodeResponse (jsonUnmarshal read) body = .ok (members.result.getD [])) ∧
    (∀ e, decodeResponse (jsonUnmarshal read) body = .error ("API returned errors: " ++ e) →
      ∃ members, read body = .ok members ∧ members.success ≠ some true ∧
        e = fmtStrings (members.errors.getD [])) := by
  obtain ⟨g1, g2, g3, g4⟩ := decodeResponse_outcomes unmarshal body
  obtain ⟨j1, j2, j3, j4⟩ := decodeResponse_outcomes (jsonUnmarshal read) body
  have hflag : ∀ (o : Option Bool), o ≠ some true → o.getD false = false := by
    intro o ho
    cases o with
    | none => rfl
    | some b =>
      cases b with
      | false => rfl
      | true => exact absurd rfl ho
  refine ⟨g1, g2, g3, g4, fun _ _ => rfl, ?_, ?_, ?_, ?_⟩
  · intro err h
    exact j1 err (by simp [jsonUnmarshal, h])
  · intro members h hs
    have hu : jsonUnmarshal read body =
        .ok { Result := members.result.getD [], Success := members.success.getD false,
              Errors := members.errors.getD [] } := by
      simp only [jsonUnmarshal, h]
    exact j2 _ hu (hflag _ hs)
  · intro members h hs
    have hu : jsonUnmarshal read body =
        .ok { Result := members.result.getD [], Success := members.success.getD false,
              Errors := members.errors.getD [] } := by
      simp only [jsonUnmarshal, h]
    exact j3 _ hu (by simp [hs])
  · intro e h
    obtain ⟨r, hr, hfalse, he⟩ := j4 e h
    cases hread : read body with
    | error err => simp [jsonUnmarshal, hread] at hr
    | ok members =>
      simp only [jsonUnmarshal, hread] at hr
      have hr2 := Except.ok.inj hr
      subst hr2
      refine ⟨members, rfl, ?_, he⟩
      intro hs
      simp [hs] at hfalse

/-- Witness for C8: a body that does not parse, a body reporting failure with the
error list `["invalid zone"]`, the body `{}` (nothing reported, empty error
list), and a body reporting success with the scenario record. -/
theorem C8_decode_witness :
    decodeResponse (jsonUnmarshal readBody) "" =
      .error "error parsing JSON: unexpected end of JSON input" ∧
    decodeResponse (jsonUnmarshal readBody) bodyFailure =
      .error "API returned errors: [invalid zone]" ∧
    decodeResponse (jsonUnmarshal readBody) bodyEmptyObject =
      .error "API returned errors: []" ∧
    decodeResponse (jsonUnmarshal readBody) bodySuccess = .ok [scenarioRecord] ∧
    decodeResponse unmarshalRejects "" =
      .error "error parsing JSON: unexpected end of JSON input" := by
  have hnone := C8_decode unmarshalRejects readBody ""
  have hfail := C8_decode unmarshalRejects readBody bodyFailure
  have hempty := C8_decode unmarshalRejects readBody bodyEmptyObject
  have hsucc := C8_decode unmarshalRejects readBody bodySuccess
  have g1 := hnone.1
  have r1 := hnone.2.2.2.2.2.1
  have f2 := hfail.2.2.2.2.2.2.1
  have e2 := hempty.2.2.2.2.2.2.1
  have s3 := hsucc.2.2.2.2.2.2.2.1
  exact ⟨r1 "unexpected end of JSON input" rfl,
    f2 { result := none, success := some false, errors := some ["invalid zone"] } rfl
      (by decide),
    e2 { result := none, success := none, errors := none } rfl (by decide),
    s3 { result := some [scenarioRecord], success := some true, errors := none } rfl rfl,
    g1 "unexpected end of JSON input" rfl⟩

/-! ## Trimming the observed address -/

theorem trimSpaceChars_eq (cs : List Char) :
    trimSpaceChars cs = (cs.dropWhile isSpace).rdropWhile isSpace := rfl

theorem trimSpaceChars_split (cs : List Char) :
    cs = cs.takeWhile isSpace ++ trimSpaceChars cs
      ++ (cs.dropWhile isSpace).rtakeWhile isSpace := by
  have h1 : (cs.dropWhile isSpace).rdropWhile isSpace
      ++ (cs.dropWhile isSpace).rtakeWhile isSpace = cs.dropWhile isSpace := by
    rw [List.rdropWhile, List.rtakeWhile, ← List.reverse_append,
      List.takeWhile_append_dropWhile, List.reverse_reverse]
  rw [trimSpaceChars_eq, List.append_assoc, h1, List.takeWhile_append_dropWhile]

theorem trimSpaceChars_head (cs : List Char) (c : Char)
    (h : (trimSpaceChars cs).head? = some c) : isSpace c = false := by
  obtain ⟨t, ht⟩ : trimSpaceChars cs <+: cs.dropWhile isSpace := by
    rw [trimSpaceChars_eq]; exact List.rdropWhile_prefix isSpace _
  have hd : (cs.dropWhile isSpace).head? = some c := by
    rw [← ht]
    cases hts : trimSpaceChars cs with
    | nil => rw [hts] at h; simp at h
    | cons x xs => rw [hts] at h; simpa using h
  have := List.head?_dropWhile_not isSpace cs
  rw [hd] at this
  exact this

theorem trimSpaceChars_getLast (cs : List Char) (c : Char)
    (h : (trimSpaceChars cs).getLast? = some c) : isSpace c = false := by
  have hne : (cs.dropWhile isSpace).rdropWhile isSpace ≠ [] := by
    intro hnil
    rw [trimSpaceChars_eq, hnil] at h
    simp at h
  have hlast := List.rdropWhile_last_not isSpace (cs.dropWhile isSpace) hne
  rw [trimSpaceChars_eq, List.getLast?_eq_getLast _ hne] at h
  cases h
  simpa using hlast

theorem trimSpaceChars_idempotent (cs : List Char) :
    trimSpaceChars (trimSpaceChars cs) = trimSpaceChars cs := by
  have hgen : ∀ (l : List Char), (∀ c, l.head? = some c → isSpace c = false) →
      l.dropWhile isSpace = l := by
    intro l hl
    cases l with
    | nil => rfl
    | cons x xs => simp [List.dropWhile_cons, hl x rfl]
  have hdrop : (trimSpaceChars cs).dropWhile isSpace = trimSpaceChars cs :=
    hgen _ (trimSpaceChars_head cs)
  conv_lhs => rw [trimSpaceChars_eq, hdrop, trimSpaceChars_eq]
  rw [List.rdropWhile_idempotent, ← trimSpaceChars_eq]

/-- C10: when the response body is read, `getCurrentPublicIP` returns
`strings.TrimSpace` of it: the body is some white space, then the result, then
some white space; the result neither starts nor ends with a white-space
character; and trimming the result again leaves it unchanged. -/
theorem C10_observed_address_trimmed (b : String) :
    (getCurrentPublicIP (.body b)).2 = .ok (TrimSpace b) ∧
    (∃ pre post : List Char,
      b.data = pre ++ (TrimSpace b).data ++ post ∧
      (∀ c ∈ pre, isSpace c = true) ∧ (∀ c ∈ post, isSpace c = true)) ∧
    (∀ c, (TrimSpace b).data.head? = some c → isSpace c = false) ∧
    (∀ c, (TrimSpace b).data.getLast? = some c → isSpace c = false) ∧
    TrimSpace (TrimSpace b) = TrimSpace b := by
  refine ⟨rfl, ⟨b.data.takeWhile isSpace, (b.data.dropWhile isSpace).rtakeWhile isSpace,
    trimSpaceChars_split b.data, fun c hc => List.mem_takeWhile_imp hc,
    fun c hc => List.mem_rtakeWhile_imp hc⟩, ?_, ?_, ?_⟩
  · exact fun c h => trimSpaceChars_head b.data c h
  · exact fun c h => trimSpaceChars_getLast b.data c h
  · exact congrArg String.mk (trimSpaceChars_idempotent b.data)

/-- Witness for C10: a body with white space on both sides of the address. -/
theorem C10_observed_address_trimmed_witness :
    (getCurrentPublicIP (.body " \t203.0.113.7\r\n")).2 = .ok "203.0.113.7" ∧
    isSpace (Char.ofNat 50) = false ∧ isSpace (Char.ofNat 55) = false :=
  have h := C10_observed_address_trimmed " \t203.0.113.7\r\n"
  ⟨h.1.trans (congrArg Except.ok (by decide)), h.2.2.1 (Char.ofNat 50) (by decide),
    h.2.2.2.1 (Char.ofNat 55) (by decide)⟩

end CloudflareDyn
